import Mathlib

/-
  Verification of the fufuok/cache TTL cache façade (xsync_map.go) against its
  natural-language specification.

  The façade binds a concurrent hash map (the xsync Map) with a TTL item layer,
  a default-expiration cell and an evicted callback.  We shallow-embed the
  logical content of the hash map as an association list and the façade
  operations as pure state-passing functions.  Wall-clock reads (time.Now) are
  passed in explicitly as an integer nanosecond timestamp `now`; Go durations
  are integers in nanoseconds.  The evicted callback is modelled by a flag
  `hasCallback` (callback configured, i.e. non-nil) together with a log
  `evictedLog` recording, in order, every invocation of the callback with its
  `(key, value)` argument.
-/

namespace FufuCache

/-- Sentinel duration: the cached item never expires (Go `NoExpiration = -2 * time.Second`,
here in nanoseconds). -/
def NoExpiration : Int := -2000000000

/-- Sentinel duration: use the cache's default expiration
(Go `DefaultExpiration = -1 * time.Second`, in nanoseconds). -/
def DefaultExpiration : Int := -1000000000

/-- Go `item[V]`: a stored value together with its absolute expiry in
nanoseconds; `e = 0` means the item never expires. -/
structure Item (V : Type) where
  v : V
  e : Int
  deriving DecidableEq

/-- Go `item.expiredWithNow(now)`: `i.e > 0 && now > i.e`. -/
def Item.expiredWithNow {V : Type} (i : Item V) (now : Int) : Bool :=
  decide (i.e > 0) && decide (now > i.e)

/-- Go `xsync.ComputeOp` (declared in this repository's Map interface file). -/
inductive ComputeOp where
  | CancelOp
  | UpdateOp
  | DeleteOp
  deriving DecidableEq

/-- The logical content of the xsync hash map: an association list from keys to
TTL items.  The real map keeps at most one entry per key; store replaces the
entry in place and delete removes every entry of the key. -/
abbrev MapList (K V : Type) := List (K × Item V)

variable {K V : Type}

/-- Zero `item[V]` (Go `var zeroedV item[V]`). -/
def zeroItem [Inhabited V] : Item V := ⟨default, 0⟩

/-- xsync `Map.Load`: the value stored for a key, if present. -/
def mapLoad [DecidableEq K] (m : MapList K V) (k : K) : Option (Item V) :=
  match m with
  | [] => none
  | p :: rest => if k = p.1 then some p.2 else mapLoad rest k

/-- xsync `Map.Store`: replaces the entry for the key, inserting it if absent. -/
def mapStore [DecidableEq K] (m : MapList K V) (k : K) (i : Item V) : MapList K V :=
  match m with
  | [] => [(k, i)]
  | p :: rest => if p.1 = k then (k, i) :: rest else p :: mapStore rest k i

/-- xsync `Map.Delete`: removes the entry for the key. -/
def mapDelete [DecidableEq K] (m : MapList K V) (k : K) : MapList K V :=
  m.filter (fun p => decide (p.1 ≠ k))

/-- xsync `Map.Compute(k, fn)`, per the contract documented on the Map
interface in this repository: `fn` receives the old value (zero value when
absent) and a `loaded` flag; on `UpdateOp` the entry is set to the returned
value, on `DeleteOp` it is removed, on `CancelOp` it is left as-is.  The
returned `ok` indicates whether the entry is present in the map after the
operation, and the returned value is the map's value when present, the zero
value otherwise. -/
def mapCompute [DecidableEq K] [Inhabited V] (m : MapList K V) (k : K)
    (fn : Item V → Bool → Item V × ComputeOp) : MapList K V × Item V × Bool :=
  match mapLoad m k with
  | some old =>
    match fn old true with
    | (_, ComputeOp.CancelOp) => (m, old, true)
    | (nv, ComputeOp.UpdateOp) => (mapStore m k nv, nv, true)
    | (_, ComputeOp.DeleteOp) => (mapDelete m k, zeroItem, false)
  | none =>
    match fn zeroItem false with
    | (_, ComputeOp.CancelOp) => (m, zeroItem, false)
    | (nv, ComputeOp.UpdateOp) => (mapStore m k nv, nv, true)
    | (_, ComputeOp.DeleteOp) => (m, zeroItem, false)

/-- Go `xsyncMap[K, V]`: the cache state.  `defaultExpiration` is the atomic
default-TTL cell (nanoseconds); `hasCallback` records whether an evicted
callback is configured (non-nil); `evictedLog` records every invocation of the
configured callback, in order, with its `(key, value)` argument. -/
structure CacheState (K V : Type) where
  items : MapList K V
  defaultExpiration : Int
  hasCallback : Bool
  evictedLog : List (K × V)
  deriving DecidableEq

/-- Go `xsyncMap.expiration(d)`: substitute the default TTL when `d` equals the
`DefaultExpiration` sentinel, then return `now + d` for positive `d` and `0`
(never expires) otherwise. -/
def CacheState.expiration (c : CacheState K V) (now d : Int) : Int :=
  let d' := if d = DefaultExpiration then c.defaultExpiration else d
  if d' > 0 then now + d' else 0

/-- Go `xsyncMap.Set`: store the item, replacing any existing one. -/
def CacheState.Set [DecidableEq K] (c : CacheState K V) (k : K) (v : V) (d now : Int) :
    CacheState K V :=
  { c with items := mapStore c.items k ⟨v, c.expiration now d⟩ }

/-- Go `xsyncMap.get`: outer lock-free `Load` plus expiry check, then on an
expired hit a double-checking `Compute` that deletes the entry unless the key
meanwhile holds a fresh value.  The map state seen by the outer `Load` (`m1`)
and the state the `Compute` runs on (`m2`) are passed separately so that the
effect of a mutation landing between the two steps is expressible; a call with
no interleaved mutation has `m1 = m2`. -/
def getCore [DecidableEq K] [Inhabited V] (m1 m2 : MapList K V) (k : K) (now : Int) :
    MapList K V × Item V × Bool :=
  match mapLoad m1 k with
  | none => (m2, zeroItem, false)
  | some i =>
    if !(i.expiredWithNow now) then (m2, i, true)
    else
      let r := mapCompute m2 k (fun value loaded =>
        if loaded && !(value.expiredWithNow now) then (value, ComputeOp.CancelOp)
        else (zeroItem, ComputeOp.DeleteOp))
      if r.2.2 then (r.1, r.2.1, true) else (r.1, zeroItem, false)

/-- Sequential Go `xsyncMap.get`. -/
def CacheState.getItem [DecidableEq K] [Inhabited V] (c : CacheState K V) (k : K)
    (now : Int) : CacheState K V × Item V × Bool :=
  let r := getCore c.items c.items k now
  ({ c with items := r.1 }, r.2)

/-- Go `xsyncMap.Get`. -/
def CacheState.Get [DecidableEq K] [Inhabited V] (c : CacheState K V) (k : K)
    (now : Int) : CacheState K V × V × Bool :=
  let r := c.getItem k now
  (r.1, r.2.1.v, r.2.2)

/-- Go `xsyncMap.GetWithExpiration`; the returned `time.Time` is modelled by
its UnixNano value, with `0` standing for the zero time. -/
def CacheState.GetWithExpiration [DecidableEq K] [Inhabited V] (c : CacheState K V)
    (k : K) (now : Int) : CacheState K V × V × Int × Bool :=
  let r := c.getItem k now
  if !r.2.2 then (r.1, default, 0, false)
  else if r.2.1.e > 0 then (r.1, r.2.1.v, r.2.1.e, true)
  else (r.1, r.2.1.v, 0, true)

/-- Go `xsyncMap.GetWithTTL`; the remaining lifetime is in nanoseconds. -/
def CacheState.GetWithTTL [DecidableEq K] [Inhabited V] (c : CacheState K V)
    (k : K) (now : Int) : CacheState K V × V × Int × Bool :=
  let r := c.getItem k now
  if !r.2.2 then (r.1, default, 0, false)
  else if r.2.1.e > 0 then (r.1, r.2.1.v, r.2.1.e - now, true)
  else (r.1, r.2.1.v, NoExpiration, true)

/-- Go `xsyncMap.GetAndSet`: the compute lambda always stores the new item and
records the old value when it was present and fresh; the façade then returns
the prior fresh value when there was one and the newly stored value otherwise. -/
def CacheState.GetAndSet [DecidableEq K] [Inhabited V] (c : CacheState K V) (k : K)
    (v : V) (d now : Int) : CacheState K V × V × Bool :=
  let r := mapCompute c.items k (fun _ _ => (⟨v, c.expiration now d⟩, ComputeOp.UpdateOp))
  let c' := { c with items := r.1 }
  match mapLoad c.items k with
  | some old =>
    if !(old.expiredWithNow now) then (c', old.v, true) else (c', r.2.1.v, false)
  | none => (c', r.2.1.v, false)

/-- Go `xsyncMap.GetOrCompute`: keep a present-and-fresh value (loaded); else
run `valueFn` and either cancel (no mutation) or insert the computed value. -/
def CacheState.GetOrCompute [DecidableEq K] [Inhabited V] (c : CacheState K V) (k : K)
    (valueFn : Unit → V × Bool) (d now : Int) : CacheState K V × V × Bool :=
  let r := mapCompute c.items k (fun value loaded =>
    if loaded && !(value.expiredWithNow now) then (value, ComputeOp.CancelOp)
    else
      let p := valueFn ()
      if !p.2 then ((⟨p.1, c.expiration now d⟩ : Item V), ComputeOp.UpdateOp)
      else (value, ComputeOp.CancelOp))
  let ok := match mapLoad c.items k with
            | some old => !(old.expiredWithNow now)
            | none => false
  ({ c with items := r.1 }, r.2.1.v, ok)

/-- Go `xsyncMap.Compute`: the lambda receives the prior fresh value (zero
value otherwise) and a freshness flag, and returns a new value and a
`ComputeOp`; the façade stores, deletes or cancels accordingly and returns the
present-after value (the prior fresh value when nothing is present after). -/
def CacheState.Compute [DecidableEq K] [Inhabited V] (c : CacheState K V) (k : K)
    (valueFn : V → Bool → V × ComputeOp) (d now : Int) : CacheState K V × V × Bool :=
  let r := mapCompute c.items k (fun ov lok =>
    let fresh := lok && !(ov.expiredWithNow now)
    let old := if fresh then ov.v else (default : V)
    let p := valueFn old fresh
    match p.2 with
    | ComputeOp.DeleteOp => (ov, ComputeOp.DeleteOp)
    | ComputeOp.UpdateOp => ((⟨p.1, c.expiration now d⟩ : Item V), ComputeOp.UpdateOp)
    | ComputeOp.CancelOp => (ov, ComputeOp.CancelOp))
  let old := match mapLoad c.items k with
             | some ov => if !(ov.expiredWithNow now) then ov.v else (default : V)
             | none => (default : V)
  if r.2.2 then ({ c with items := r.1 }, r.2.1.v, true)
  else ({ c with items := r.1 }, old, false)

/-- Go `xsyncMap.GetAndDelete`: `LoadAndDelete` on the map, then, when an entry
was removed and a callback is configured, invoke it with the removed pair. -/
def CacheState.GetAndDelete [DecidableEq K] [Inhabited V] (c : CacheState K V) (k : K) :
    CacheState K V × V × Bool :=
  match mapLoad c.items k with
  | none => (c, default, false)
  | some i =>
    ({ c with
        items := mapDelete c.items k,
        evictedLog :=
          if c.hasCallback then c.evictedLog ++ [(k, i.v)] else c.evictedLog },
      i.v, true)

/-- Go `xsyncMap.Delete`: `GetAndDelete` with the results discarded. -/
def CacheState.Delete [DecidableEq K] [Inhabited V] (c : CacheState K V) (k : K) :
    CacheState K V :=
  (c.GetAndDelete k).1

/-- Go `xsyncMap.DeleteExpired`: range over the map, delete every entry expired
at the captured `now`, collecting the evicted pairs when a callback is
configured, and invoke the callback on them after the iteration completes. -/
def CacheState.DeleteExpired [DecidableEq K] (c : CacheState K V) (now : Int) :
    CacheState K V :=
  let evictedItems := c.items.filter (fun p => p.2.expiredWithNow now)
  { c with
    items := c.items.filter (fun p => !(p.2.expiredWithNow now)),
    evictedLog :=
      if c.hasCallback then c.evictedLog ++ evictedItems.map (fun p => (p.1, p.2.v))
      else c.evictedLog }

/-- The keys Go `xsyncMap.Range` hands to a never-stopping visitor: every
stored entry not expired at the `now` captured once at the start. -/
def CacheState.rangeKeys (c : CacheState K V) (now : Int) : List K :=
  (c.items.filter (fun p => !(p.2.expiredWithNow now))).map (fun p => p.1)

/-- Go `xsyncMap.Count`: the size of the underlying map, expired entries
included. -/
def CacheState.Count (c : CacheState K V) : Nat :=
  c.items.length

/-- Modelled from the spec: the body of `Cache.LoadItemsWithExpiration` is not
among the available source files (only its interface declaration, tests and
callers are).  Spec: for each input entry, a zero `Expiration` time stores the
value never-expiring; a future `Expiration` stores the value with that
absolute expiry; a past `Expiration` is not inserted and any existing entry at
that key is deleted, without invoking the evicted callback; a nil or empty
input leaves the cache unchanged.  The input `time.Time` is modelled by its
UnixNano value with `0` standing for the zero time. -/
def CacheState.LoadItemsWithExpiration [DecidableEq K] (c : CacheState K V)
    (entries : List (K × V × Int)) (now : Int) : CacheState K V :=
  entries.foldl (fun acc e =>
    if e.2.2 = 0 then { acc with items := mapStore acc.items e.1 ⟨e.2.1, 0⟩ }
    else if e.2.2 > now then { acc with items := mapStore acc.items e.1 ⟨e.2.1, e.2.2⟩ }
    else { acc with items := mapDelete acc.items e.1 }) c

/-- The prior present-and-fresh value Go `Compute` hands to its lambda
(the zero value when the key is absent or expired). -/
def CacheState.freshValue [DecidableEq K] [Inhabited V] (c : CacheState K V) (k : K)
    (now : Int) : V :=
  match mapLoad c.items k with
  | some ov => if !(ov.expiredWithNow now) then ov.v else default
  | none => default

/-- Whether the key holds a present-and-fresh item at `now`. -/
def CacheState.freshAt [DecidableEq K] (c : CacheState K V) (k : K) (now : Int) : Bool :=
  match mapLoad c.items k with
  | some ov => !(ov.expiredWithNow now)
  | none => false

theorem mapLoad_mapStore_self [DecidableEq K] (m : MapList K V) (k : K) (i : Item V) :
    mapLoad (mapStore m k i) k = some i := by
  induction m with
  | nil => simp [mapStore, mapLoad]
  | cons p rest ih =>
    simp only [mapStore]
    by_cases h : p.1 = k
    · rw [if_pos h]
      simp [mapLoad]
    · rw [if_neg h]
      simp only [mapLoad]
      rw [if_neg (fun hh => h hh.symm)]
      exact ih

theorem mapLoad_mapDelete_self [DecidableEq K] (m : MapList K V) (k : K) :
    mapLoad (mapDelete m k) k = none := by
  induction m with
  | nil => rfl
  | cons p rest ih =>
    simp only [mapDelete, List.filter_cons, decide_not] at ih ⊢
    by_cases h : p.1 = k
    · simp only [h, decide_True, Bool.not_true, Bool.false_eq_true, if_false]
      exact ih
    · simp only [h, decide_False, Bool.not_false, if_true, mapLoad]
      rw [if_neg (fun hh => h hh.symm)]
      exact ih

theorem mapLoad_mem [DecidableEq K] (m : MapList K V) (k : K) (i : Item V)
    (h : mapLoad m k = some i) : (k, i) ∈ m := by
  induction m with
  | nil => simp [mapLoad] at h
  | cons p rest ih =>
    simp only [mapLoad] at h
    by_cases hk : k = p.1
    · rw [if_pos hk] at h
      injection h with h
      have hp : p = (k, i) := by
        cases p
        simp_all
      rw [hp]
      exact List.mem_cons_self _ _
    · rw [if_neg hk] at h
      exact List.mem_cons_of_mem _ (ih h)

theorem length_filter_split (m : MapList K V) (f : K × Item V → Bool) :
    m.length = (m.filter f).length + (m.filter (fun p => !(f p))).length := by
  induction m with
  | nil => rfl
  | cons p rest ih =>
    by_cases h : f p = true
    · simp [List.filter_cons, h, ih]
      omega
    · simp only [Bool.not_eq_true] at h
      simp [List.filter_cons, h, ih]
      omega


/-- Claim C2: for every write accepting a duration d, the stored absolute
expiry substitutes the cache's current default TTL when d equals the
DefaultExpiration sentinel (compared by equality); then a positive (substituted)
d yields expiry now + d and every other d — the NoExpiration sentinel
included — yields expiry 0, meaning never expires; and an item with expiry e is
expired at now iff e > 0 and now > e. -/
theorem expiration_policy [DecidableEq K] (c : CacheState K V) (k : K) (v : V)
    (d now : Int) (i : Item V) :
    (d = DefaultExpiration →
      c.expiration now d =
        (if c.defaultExpiration > 0 then now + c.defaultExpiration else 0)) ∧
    (d ≠ DefaultExpiration → d > 0 → c.expiration now d = now + d) ∧
    (d ≠ DefaultExpiration → d ≤ 0 → c.expiration now d = 0) ∧
    c.expiration now NoExpiration = 0 ∧
    mapLoad (c.Set k v d now).items k = some ⟨v, c.expiration now d⟩ ∧
    (i.expiredWithNow now = true ↔ (i.e > 0 ∧ now > i.e)) := by
  refine ⟨?_, ?_, ?_, ?_, ?_, ?_⟩
  · intro h
    simp [CacheState.expiration, h]
  · intro h hpos
    simp [CacheState.expiration, h, hpos]
  · intro h hle
    have : ¬ d > 0 := by omega
    simp [CacheState.expiration, h, this]
  · norm_num [CacheState.expiration, NoExpiration, DefaultExpiration]
  · exact mapLoad_mapStore_self c.items k ⟨v, c.expiration now d⟩
  · simp [Item.expiredWithNow]

/-- Witness for C2 at concrete inputs: default TTL 5 substituted for the
sentinel, positive d added to now, nonpositive d (and NoExpiration) giving 0,
and the expiry predicate at an expired item. -/
theorem expiration_policy_witness :
    ((⟨[], 5, false, []⟩ : CacheState Nat Nat).expiration 100 DefaultExpiration = 105) ∧
    ((⟨[], 5, false, []⟩ : CacheState Nat Nat).expiration 100 7 = 107) ∧
    ((⟨[], 5, false, []⟩ : CacheState Nat Nat).expiration 100 0 = 0) ∧
    ((Item.mk (3 : Nat) 4).expiredWithNow 10 = true ↔
      ((4 : Int) > 0 ∧ (10 : Int) > 4)) := by
  refine ⟨?_, ?_, ?_, ?_⟩
  · have h := (expiration_policy (⟨[], 5, false, []⟩ : CacheState Nat Nat) 0 0
      DefaultExpiration 100 ⟨3, 4⟩).1 rfl
    simpa using h
  · have h := (expiration_policy (⟨[], 5, false, []⟩ : CacheState Nat Nat) 0 0
      7 100 ⟨3, 4⟩).2.1 (by norm_num [DefaultExpiration]) (by norm_num)
    simpa using h
  · have h := (expiration_policy (⟨[], 5, false, []⟩ : CacheState Nat Nat) 0 0
      0 100 ⟨3, 4⟩).2.2.1 (by norm_num [DefaultExpiration]) (by norm_num)
    simpa using h
  · exact (expiration_policy (⟨[], 5, false, []⟩ : CacheState Nat Nat) 0 0
      0 10 ⟨3, 4⟩).2.2.2.2.2

/-- Claim C1: a get-family call (Get, GetWithExpiration, GetWithTTL) finding the
stored item expired returns the zero value of V with ok=false and deletes the
entry via the double-checking compute step, and that step keeps and returns a
value refreshed between the outer expiry check and the compute; a
present-and-fresh item is returned with ok=true; an absent key yields the zero
value with ok=false; and no get-family call returns an expired item. -/
theorem get_family_expired [DecidableEq K] [Inhabited V] (c : CacheState K V)
    (k : K) (i : Item V) (now : Int) :
    (mapLoad c.items k = some i → i.expiredWithNow now = true →
      c.Get k now = ({ c with items := mapDelete c.items k }, default, false) ∧
      c.GetWithExpiration k now =
        ({ c with items := mapDelete c.items k }, default, 0, false) ∧
      c.GetWithTTL k now =
        ({ c with items := mapDelete c.items k }, default, 0, false) ∧
      mapLoad (c.Get k now).1.items k = none) ∧
    (mapLoad c.items k = some i → i.expiredWithNow now = false →
      c.Get k now = (c, i.v, true) ∧
      c.GetWithExpiration k now =
        (c, i.v, if i.e > 0 then i.e else 0, true) ∧
      c.GetWithTTL k now =
        (c, i.v, if i.e > 0 then i.e - now else NoExpiration, true)) ∧
    (mapLoad c.items k = none →
      c.Get k now = (c, default, false) ∧
      c.GetWithExpiration k now = (c, default, 0, false) ∧
      c.GetWithTTL k now = (c, default, 0, false)) ∧
    (mapLoad c.items k = some i → i.expiredWithNow now = true →
      ∀ m2 i2, mapLoad m2 k = some i2 → i2.expiredWithNow now = false →
        getCore c.items m2 k now = (m2, i2, true)) ∧
    (∀ c' j, c.getItem k now = (c', j, true) → j.expiredWithNow now = false) := by
  refine ⟨?_, ?_, ?_, ?_, ?_⟩
  · intro hl he
    have hget : c.Get k now = ({ c with items := mapDelete c.items k }, default, false) := by
      simp [CacheState.Get, CacheState.getItem, getCore, mapCompute, hl, he, zeroItem]
    refine ⟨hget, ?_, ?_, ?_⟩
    · simp [CacheState.GetWithExpiration, CacheState.getItem, getCore, mapCompute,
        hl, he, zeroItem]
    · simp [CacheState.GetWithTTL, CacheState.getItem, getCore, mapCompute,
        hl, he, zeroItem]
    · rw [hget]
      exact mapLoad_mapDelete_self c.items k
  · intro hl he
    refine ⟨?_, ?_, ?_⟩
    · simp [CacheState.Get, CacheState.getItem, getCore, hl, he]
    · by_cases hpos : i.e > 0
      · simp [CacheState.GetWithExpiration, CacheState.getItem, getCore, hl, he, hpos]
      · simp [CacheState.GetWithExpiration, CacheState.getItem, getCore, hl, he, hpos]
    · by_cases hpos : i.e > 0
      · simp [CacheState.GetWithTTL, CacheState.getItem, getCore, hl, he, hpos]
      · simp [CacheState.GetWithTTL, CacheState.getItem, getCore, hl, he, hpos]
  · intro hl
    refine ⟨?_, ?_, ?_⟩
    · simp [CacheState.Get, CacheState.getItem, getCore, hl, zeroItem]
    · simp [CacheState.GetWithExpiration, CacheState.getItem, getCore, hl, zeroItem]
    · simp [CacheState.GetWithTTL, CacheState.getItem, getCore, hl, zeroItem]
  · intro hl he m2 i2 hl2 he2
    simp [getCore, mapCompute, hl, he, hl2, he2]
  · intro c' j h
    rcases hml : mapLoad c.items k with _ | i'
    · rw [CacheState.getItem, getCore, hml] at h
      simp at h
    · by_cases hex : i'.expiredWithNow now = true
      · rw [CacheState.getItem] at h
        simp [getCore, mapCompute, hml, hex] at h
      · simp only [Bool.not_eq_true] at hex
        rw [CacheState.getItem] at h
        simp [getCore, hml, hex] at h
        rw [← h.2]
        exact hex

/-- Witness for C1 at concrete inputs: an expired entry (expiry 3, now 10) is
deleted and reported absent, a fresh entry is returned, an absent key misses,
a value refreshed between the outer check and the compute is kept, and a
successful get never yields an expired item. -/
theorem get_family_expired_witness :
    (⟨[(0, Item.mk 5 3)], NoExpiration, false, []⟩ : CacheState Nat Nat).Get 0 10 =
      (⟨[], NoExpiration, false, []⟩, 0, false) ∧
    (⟨[(0, Item.mk 5 0)], NoExpiration, false, []⟩ : CacheState Nat Nat).Get 0 10 =
      (⟨[(0, Item.mk 5 0)], NoExpiration, false, []⟩, 5, true) ∧
    (⟨[], NoExpiration, false, []⟩ : CacheState Nat Nat).Get 1 10 =
      (⟨[], NoExpiration, false, []⟩, 0, false) ∧
    getCore [(0, Item.mk (5 : Nat) 3)] [(0, Item.mk 9 0)] 0 10 =
      ([(0, Item.mk 9 0)], Item.mk 9 0, true) ∧
    (Item.mk (5 : Nat) 0).expiredWithNow 10 = false := by
  refine ⟨?_, ?_, ?_, ?_, ?_⟩
  · have h := (get_family_expired
      (⟨[(0, Item.mk 5 3)], NoExpiration, false, []⟩ : CacheState Nat Nat)
      0 (Item.mk 5 3) 10).1 (by decide) (by decide)
    exact h.1.trans (by decide)
  · exact ((get_family_expired
      (⟨[(0, Item.mk 5 0)], NoExpiration, false, []⟩ : CacheState Nat Nat)
      0 (Item.mk 5 0) 10).2.1 (by decide) (by decide)).1
  · exact ((get_family_expired
      (⟨[], NoExpiration, false, []⟩ : CacheState Nat Nat)
      1 (Item.mk 0 0) 10).2.2.1 (by decide)).1
  · exact (get_family_expired
      (⟨[(0, Item.mk 5 3)], NoExpiration, false, []⟩ : CacheState Nat Nat)
      0 (Item.mk 5 3) 10).2.2.2.1 (by decide) (by decide)
      [(0, Item.mk 9 0)] (Item.mk 9 0) (by decide) (by decide)
  · exact (get_family_expired
      (⟨[(0, Item.mk 5 0)], NoExpiration, false, []⟩ : CacheState Nat Nat)
      0 (Item.mk 5 0) 10).2.2.2.2
      (⟨[(0, Item.mk 5 0)], NoExpiration, false, []⟩ : CacheState Nat Nat)
      (Item.mk 5 0) (by decide)

/-- Claim C3: Compute invokes its function at exactly the pair (old, loaded)
where loaded is true iff the key is present-and-fresh and old is then the
current value (the zero value otherwise); on UpdateOp the cache afterwards maps
the key to the returned value with expiry derived from d and Compute returns it
with ok=true; on DeleteOp any current mapping is removed and Compute returns
the prior fresh value (zero if none) with ok=false; on CancelOp the cache state
is unchanged and ok reflects whether an entry is present after the operation. -/
theorem compute_op_semantics [DecidableEq K] [Inhabited V] (c : CacheState K V) (k : K)
    (valueFn : V → Bool → V × ComputeOp) (d now : Int) (v' : V) :
    (c.freshAt k now = true ↔
      ∃ i, mapLoad c.items k = some i ∧ i.expiredWithNow now = false) ∧
    (∀ i, mapLoad c.items k = some i → i.expiredWithNow now = false →
      c.freshValue k now = i.v) ∧
    (c.freshAt k now = false → c.freshValue k now = default) ∧
    (c.Compute k valueFn d now =
      c.Compute k (fun _ _ => valueFn (c.freshValue k now) (c.freshAt k now)) d now) ∧
    (valueFn (c.freshValue k now) (c.freshAt k now) = (v', ComputeOp.UpdateOp) →
      mapLoad (c.Compute k valueFn d now).1.items k =
        some ⟨v', c.expiration now d⟩ ∧
      (c.Compute k valueFn d now).2 = (v', true)) ∧
    (valueFn (c.freshValue k now) (c.freshAt k now) = (v', ComputeOp.DeleteOp) →
      mapLoad (c.Compute k valueFn d now).1.items k = none ∧
      (c.Compute k valueFn d now).2 = (c.freshValue k now, false)) ∧
    (valueFn (c.freshValue k now) (c.freshAt k now) = (v', ComputeOp.CancelOp) →
      (c.Compute k valueFn d now).1 = c ∧
      (c.Compute k valueFn d now).2.2 = (mapLoad c.items k).isSome) := by
  refine ⟨?_, ?_, ?_, ?_, ?_, ?_, ?_⟩
  · rcases hml : mapLoad c.items k with _ | ov
    · simp [CacheState.freshAt, hml]
    · by_cases hex : ov.expiredWithNow now = true
      · simp [CacheState.freshAt, hml, hex]
      · simp only [Bool.not_eq_true] at hex
        simp [CacheState.freshAt, hml, hex]
  · intro i hml hex
    simp [CacheState.freshValue, hml, hex]
  · intro hfa
    rcases hml : mapLoad c.items k with _ | ov
    · simp [CacheState.freshValue, hml]
    · simp only [CacheState.freshAt, hml] at hfa
      simp [CacheState.freshValue, hml, hfa]
  · rcases hml : mapLoad c.items k with _ | ov
    · simp [CacheState.Compute, mapCompute, CacheState.freshValue,
        CacheState.freshAt, hml]
    · by_cases hex : ov.expiredWithNow now = true
      · simp [CacheState.Compute, mapCompute, CacheState.freshValue,
          CacheState.freshAt, hml, hex]
      · simp only [Bool.not_eq_true] at hex
        simp [CacheState.Compute, mapCompute, CacheState.freshValue,
          CacheState.freshAt, hml, hex]
  · intro hval
    rcases hml : mapLoad c.items k with _ | ov
    · simp [CacheState.freshValue, CacheState.freshAt, hml] at hval
      simp [CacheState.Compute, mapCompute, hml, hval, mapLoad_mapStore_self]
    · by_cases hex : ov.expiredWithNow now = true
      · simp [CacheState.freshValue, CacheState.freshAt, hml, hex] at hval
        simp [CacheState.Compute, mapCompute, hml, hex, hval, mapLoad_mapStore_self]
      · simp only [Bool.not_eq_true] at hex
        simp [CacheState.freshValue, CacheState.freshAt, hml, hex] at hval
        simp [CacheState.Compute, mapCompute, hml, hex, hval, mapLoad_mapStore_self]
  · intro hval
    rcases hml : mapLoad c.items k with _ | ov
    · simp [CacheState.freshValue, CacheState.freshAt, hml] at hval
      simp [CacheState.Compute, mapCompute, CacheState.freshValue, hml, hval]
    · by_cases hex : ov.expiredWithNow now = true
      · simp [CacheState.freshValue, CacheState.freshAt, hml, hex] at hval
        simp [CacheState.Compute, mapCompute, CacheState.freshValue, hml, hex, hval,
          mapLoad_mapDelete_self]
      · simp only [Bool.not_eq_true] at hex
        simp [CacheState.freshValue, CacheState.freshAt, hml, hex] at hval
        simp [CacheState.Compute, mapCompute, CacheState.freshValue, hml, hex, hval,
          mapLoad_mapDelete_self]
  · intro hval
    rcases hml : mapLoad c.items k with _ | ov
    · simp [CacheState.freshValue, CacheState.freshAt, hml] at hval
      simp [CacheState.Compute, mapCompute, hml, hval]
    · by_cases hex : ov.expiredWithNow now = true
      · simp [CacheState.freshValue, CacheState.freshAt, hml, hex] at hval
        simp [CacheState.Compute, mapCompute, hml, hex, hval]
      · simp only [Bool.not_eq_true] at hex
        simp [CacheState.freshValue, CacheState.freshAt, hml, hex] at hval
        simp [CacheState.Compute, mapCompute, hml, hex, hval]

/-- Witness for C3 at concrete inputs: updating a fresh entry stores the
computed value with expiry now + d, deleting returns the prior fresh value with
ok=false, cancelling on an expired entry leaves the state unchanged, and the
lambda's old argument is the fresh value (zero when expired). -/
theorem compute_op_semantics_witness :
    (mapLoad ((⟨[(0, Item.mk 7 0)], NoExpiration, true, []⟩ : CacheState Nat Nat).Compute 0
        (fun o _ => (o + 1, ComputeOp.UpdateOp)) 5 10).1.items 0 = some ⟨8, 15⟩) ∧
    (((⟨[(0, Item.mk 7 0)], NoExpiration, true, []⟩ : CacheState Nat Nat).Compute 0
        (fun o _ => (o + 1, ComputeOp.UpdateOp)) 5 10).2 = (8, true)) ∧
    (mapLoad ((⟨[(0, Item.mk 7 0)], NoExpiration, true, []⟩ : CacheState Nat Nat).Compute 0
        (fun _ _ => ((0 : Nat), ComputeOp.DeleteOp)) 5 10).1.items 0 = none) ∧
    (((⟨[(0, Item.mk 7 0)], NoExpiration, true, []⟩ : CacheState Nat Nat).Compute 0
        (fun _ _ => ((0 : Nat), ComputeOp.DeleteOp)) 5 10).2 = (7, false)) ∧
    (((⟨[(0, Item.mk 5 3)], NoExpiration, true, []⟩ : CacheState Nat Nat).Compute 0
        (fun _ _ => ((0 : Nat), ComputeOp.CancelOp)) 5 10).1 =
      (⟨[(0, Item.mk 5 3)], NoExpiration, true, []⟩ : CacheState Nat Nat)) ∧
    ((⟨[(0, Item.mk 7 0)], NoExpiration, true, []⟩ : CacheState Nat Nat).freshValue 0 10 = 7) ∧
    ((⟨[(0, Item.mk 5 3)], NoExpiration, true, []⟩ : CacheState Nat Nat).freshValue 0 10 = 0) := by
  refine ⟨?_, ?_, ?_, ?_, ?_, ?_, ?_⟩
  · exact (((compute_op_semantics
      (⟨[(0, Item.mk 7 0)], NoExpiration, true, []⟩ : CacheState Nat Nat) 0
      (fun o _ => (o + 1, ComputeOp.UpdateOp)) 5 10 8).2.2.2.2.1
        (by decide)).1).trans (by decide)
  · exact ((compute_op_semantics
      (⟨[(0, Item.mk 7 0)], NoExpiration, true, []⟩ : CacheState Nat Nat) 0
      (fun o _ => (o + 1, ComputeOp.UpdateOp)) 5 10 8).2.2.2.2.1
        (by decide)).2
  · exact ((compute_op_semantics
      (⟨[(0, Item.mk 7 0)], NoExpiration, true, []⟩ : CacheState Nat Nat) 0
      (fun _ _ => ((0 : Nat), ComputeOp.DeleteOp)) 5 10 0).2.2.2.2.2.1
        (by decide)).1
  · exact (((compute_op_semantics
      (⟨[(0, Item.mk 7 0)], NoExpiration, true, []⟩ : CacheState Nat Nat) 0
      (fun _ _ => ((0 : Nat), ComputeOp.DeleteOp)) 5 10 0).2.2.2.2.2.1
        (by decide)).2).trans (by decide)
  · exact ((compute_op_semantics
      (⟨[(0, Item.mk 5 3)], NoExpiration, true, []⟩ : CacheState Nat Nat) 0
      (fun _ _ => ((0 : Nat), ComputeOp.CancelOp)) 5 10 0).2.2.2.2.2.2
        (by decide)).1
  · exact (compute_op_semantics
      (⟨[(0, Item.mk 7 0)], NoExpiration, true, []⟩ : CacheState Nat Nat) 0
      (fun o _ => (o + 1, ComputeOp.UpdateOp)) 5 10 8).2.1
        (Item.mk 7 0) (by decide) (by decide)
  · exact (compute_op_semantics
      (⟨[(0, Item.mk 5 3)], NoExpiration, true, []⟩ : CacheState Nat Nat) 0
      (fun _ _ => ((0 : Nat), ComputeOp.CancelOp)) 5 10 0).2.2.1 (by decide)

/-- Claim C6: GetAndSet always stores the new item with expiry derived from d;
it returns the prior value with loaded=true when a present-and-fresh prior
value existed, and otherwise — key absent or holding only an expired item — it
returns the newly stored value with loaded=false. -/
theorem get_and_set_semantics [DecidableEq K] [Inhabited V] (c : CacheState K V)
    (k : K) (v : V) (d now : Int) (i : Item V) :
    (mapLoad (c.GetAndSet k v d now).1.items k = some ⟨v, c.expiration now d⟩) ∧
    (mapLoad c.items k = some i → i.expiredWithNow now = false →
      (c.GetAndSet k v d now).2 = (i.v, true)) ∧
    (mapLoad c.items k = some i → i.expiredWithNow now = true →
      (c.GetAndSet k v d now).2 = (v, false)) ∧
    (mapLoad c.items k = none →
      (c.GetAndSet k v d now).2 = (v, false)) := by
  refine ⟨?_, ?_, ?_, ?_⟩
  · rcases hml : mapLoad c.items k with _ | ov
    · simp [CacheState.GetAndSet, mapCompute, hml, mapLoad_mapStore_self]
    · by_cases hex : ov.expiredWithNow now = true
      · simp [CacheState.GetAndSet, mapCompute, hml, hex, mapLoad_mapStore_self]
      · simp only [Bool.not_eq_true] at hex
        simp [CacheState.GetAndSet, mapCompute, hml, hex, mapLoad_mapStore_self]
  · intro hml hex
    simp [CacheState.GetAndSet, mapCompute, hml, hex]
  · intro hml hex
    simp [CacheState.GetAndSet, mapCompute, hml, hex]
  · intro hml
    simp [CacheState.GetAndSet, mapCompute, hml]

/-- Witness for C6 at concrete inputs: overwriting a fresh entry returns the
prior value with loaded=true, overwriting an expired entry returns the new
value with loaded=false, and inserting at an absent key returns the new value
with loaded=false; in each case the new item is stored with expiry now + d. -/
theorem get_and_set_semantics_witness :
    (mapLoad ((⟨[(0, Item.mk 7 0)], NoExpiration, false, []⟩ : CacheState Nat Nat).GetAndSet
        0 9 5 10).1.items 0 = some ⟨9, 15⟩) ∧
    (((⟨[(0, Item.mk 7 0)], NoExpiration, false, []⟩ : CacheState Nat Nat).GetAndSet
        0 9 5 10).2 = (7, true)) ∧
    (((⟨[(0, Item.mk 5 3)], NoExpiration, false, []⟩ : CacheState Nat Nat).GetAndSet
        0 9 5 10).2 = (9, false)) ∧
    (((⟨[], NoExpiration, false, []⟩ : CacheState Nat Nat).GetAndSet
        0 9 5 10).2 = (9, false)) := by
  refine ⟨?_, ?_, ?_, ?_⟩
  · exact ((get_and_set_semantics
      (⟨[(0, Item.mk 7 0)], NoExpiration, false, []⟩ : CacheState Nat Nat)
      0 9 5 10 (Item.mk 7 0)).1).trans (by decide)
  · exact (get_and_set_semantics
      (⟨[(0, Item.mk 7 0)], NoExpiration, false, []⟩ : CacheState Nat Nat)
      0 9 5 10 (Item.mk 7 0)).2.1 (by decide) (by decide)
  · exact (get_and_set_semantics
      (⟨[(0, Item.mk 5 3)], NoExpiration, false, []⟩ : CacheState Nat Nat)
      0 9 5 10 (Item.mk 5 3)).2.2.1 (by decide) (by decide)
  · exact (get_and_set_semantics
      (⟨[], NoExpiration, false, []⟩ : CacheState Nat Nat)
      0 9 5 10 (Item.mk 0 0)).2.2.2 (by decide)

/-- Counterexample to C7 as stated: with key 0 holding an expired item (value 5,
expiry 3) at now = 10, GetOrCompute whose function cancels returns the stored
expired value 5 with loaded=false — not the zero value 0 that the claim
requires for every cancelled computation. -/
theorem get_or_compute_cancel_counterexample :
    (((⟨[(0, Item.mk 5 3)], NoExpiration, true, []⟩ : CacheState Nat Nat).GetOrCompute 0
      (fun _ => (99, true)) 0 10).2 = (5, false)) ∧
    ¬ (((⟨[(0, Item.mk 5 3)], NoExpiration, true, []⟩ : CacheState Nat Nat).GetOrCompute 0
      (fun _ => (99, true)) 0 10).2.1 = 0) := by
  decide

/-- Claim C7 (amended): if k is present and fresh, GetOrCompute returns the
existing value with loaded=true for every value function (so the function is
not consulted); otherwise the function runs: if it cancels, the cache is not
mutated and the call returns loaded=false with the zero value of V when k was
absent — but with the stored expired value when k held an expired item; if it
does not cancel, the computed value is inserted with expiry derived from d and
returned with loaded=false. -/
theorem get_or_compute_semantics [DecidableEq K] [Inhabited V] (c : CacheState K V)
    (k : K) (valueFn : Unit → V × Bool) (d now : Int) (i : Item V) (nv : V) :
    (mapLoad c.items k = some i → i.expiredWithNow now = false →
      c.GetOrCompute k valueFn d now = (c, i.v, true)) ∧
    (mapLoad c.items k = none → valueFn () = (nv, true) →
      c.GetOrCompute k valueFn d now = (c, default, false)) ∧
    (mapLoad c.items k = some i → i.expiredWithNow now = true →
      valueFn () = (nv, true) →
      c.GetOrCompute k valueFn d now = (c, i.v, false)) ∧
    (mapLoad c.items k = none → valueFn () = (nv, false) →
      (c.GetOrCompute k valueFn d now).1.items =
        mapStore c.items k ⟨nv, c.expiration now d⟩ ∧
      (c.GetOrCompute k valueFn d now).2 = (nv, false)) ∧
    (mapLoad c.items k = some i → i.expiredWithNow now = true →
      valueFn () = (nv, false) →
      (c.GetOrCompute k valueFn d now).1.items =
        mapStore c.items k ⟨nv, c.expiration now d⟩ ∧
      (c.GetOrCompute k valueFn d now).2 = (nv, false)) := by
  refine ⟨?_, ?_, ?_, ?_, ?_⟩
  · intro hml hex
    simp [CacheState.GetOrCompute, mapCompute, hml, hex]
  · intro hml hfn
    simp [CacheState.GetOrCompute, mapCompute, hml, hfn, zeroItem]
  · intro hml hex hfn
    simp [CacheState.GetOrCompute, mapCompute, hml, hex, hfn]
  · intro hml hfn
    simp [CacheState.GetOrCompute, mapCompute, hml, hfn, zeroItem]
  · intro hml hex hfn
    simp [CacheState.GetOrCompute, mapCompute, hml, hex, hfn]

/-- Witness for amended C7 at concrete inputs: a fresh hit is returned without
consulting the function, a cancelled computation on an absent key returns the
zero value with no mutation, a cancelled computation over an expired entry
returns the stored value, and a successful computation inserts with expiry
now + d. -/
theorem get_or_compute_semantics_witness :
    ((⟨[(0, Item.mk 7 0)], NoExpiration, false, []⟩ : CacheState Nat Nat).GetOrCompute 0
      (fun _ => (99, true)) 5 10 =
      (⟨[(0, Item.mk 7 0)], NoExpiration, false, []⟩, 7, true)) ∧
    ((⟨[], NoExpiration, false, []⟩ : CacheState Nat Nat).GetOrCompute 0
      (fun _ => (99, true)) 5 10 = (⟨[], NoExpiration, false, []⟩, 0, false)) ∧
    ((⟨[(0, Item.mk 5 3)], NoExpiration, false, []⟩ : CacheState Nat Nat).GetOrCompute 0
      (fun _ => (99, true)) 5 10 =
      (⟨[(0, Item.mk 5 3)], NoExpiration, false, []⟩, 5, false)) ∧
    (((⟨[], NoExpiration, false, []⟩ : CacheState Nat Nat).GetOrCompute 0
      (fun _ => (99, false)) 5 10).1.items = [(0, Item.mk 99 15)]) ∧
    (((⟨[], NoExpiration, false, []⟩ : CacheState Nat Nat).GetOrCompute 0
      (fun _ => (99, false)) 5 10).2 = (99, false)) := by
  refine ⟨?_, ?_, ?_, ?_, ?_⟩
  · exact (get_or_compute_semantics
      (⟨[(0, Item.mk 7 0)], NoExpiration, false, []⟩ : CacheState Nat Nat) 0
      (fun _ => (99, true)) 5 10 (Item.mk 7 0) 99).1 (by decide) (by decide)
  · exact (get_or_compute_semantics
      (⟨[], NoExpiration, false, []⟩ : CacheState Nat Nat) 0
      (fun _ => (99, true)) 5 10 (Item.mk 0 0) 99).2.1 (by decide) (by decide)
  · exact (get_or_compute_semantics
      (⟨[(0, Item.mk 5 3)], NoExpiration, false, []⟩ : CacheState Nat Nat) 0
      (fun _ => (99, true)) 5 10 (Item.mk 5 3) 99).2.2.1
      (by decide) (by decide) (by decide)
  · exact (((get_or_compute_semantics
      (⟨[], NoExpiration, false, []⟩ : CacheState Nat Nat) 0
      (fun _ => (99, false)) 5 10 (Item.mk 0 0) 99).2.2.2.1
      (by decide) (by decide)).1).trans (by decide)
  · exact ((get_or_compute_semantics
      (⟨[], NoExpiration, false, []⟩ : CacheState Nat Nat) 0
      (fun _ => (99, false)) 5 10 (Item.mk 0 0) 99).2.2.2.1
      (by decide) (by decide)).2

theorem filter_self_length_one_of_nodup {A : Type} [DecidableEq A] {a : A} {l : List A}
    (d : l.Nodup) (h : a ∈ l) :
    (l.filter (fun x => decide (x = a))).length = 1 := by
  induction l with
  | nil => cases h
  | cons b t ih =>
    have hd := List.nodup_cons.mp d
    rw [List.filter_cons]
    rcases List.mem_cons.mp h with rfl | hm
    · have hnil : t.filter (fun x => decide (x = a)) = [] :=
        List.filter_eq_nil_iff.mpr (fun x hx => by
          simp only [decide_eq_true_eq]
          rintro rfl
          exact hd.1 hx)
      simp [hnil]
    · have hba : ¬ (b = a) := fun hh => hd.1 (hh ▸ hm)
      simp only [hba, decide_False, Bool.false_eq_true, if_false]
      exact ih hd.2 hm

/-- Counterexample to C5 as stated: a Compute invocation whose function returns
DeleteOp evicts the fresh entry (0, 7) from a cache with a configured evicted
callback, yet the callback is not invoked for that eviction — the log stays
empty instead of recording the pair once. -/
theorem evicted_callback_compute_counterexample :
    (mapLoad ((⟨[(0, Item.mk 7 0)], NoExpiration, true, []⟩ : CacheState Nat Nat).Compute 0
        (fun _ _ => ((0 : Nat), ComputeOp.DeleteOp)) 5 20).1.items 0 = none) ∧
    (((⟨[(0, Item.mk 7 0)], NoExpiration, true, []⟩ : CacheState Nat Nat).Compute 0
        (fun _ _ => ((0 : Nat), ComputeOp.DeleteOp)) 5 20).1.evictedLog = []) ∧
    ¬ (((⟨[(0, Item.mk 7 0)], NoExpiration, true, []⟩ : CacheState Nat Nat).Compute 0
        (fun _ _ => ((0 : Nat), ComputeOp.DeleteOp)) 5 20).1.evictedLog = [(0, 7)]) := by
  decide

/-- Claim C5 (amended): for an eviction by the TTL sweep (DeleteExpired) or by
an explicit Delete / GetAndDelete, a configured evicted callback is invoked
exactly once with the evicted key and value, and the sweep invokes it only
after its deletion pass over the map is complete; evictions performed inside a
Compute whose function returns DeleteOp (and the removals done by the
get-family expiry double-check) do not invoke the callback. -/
theorem evicted_callback_unique [DecidableEq K] [DecidableEq V] [Inhabited V]
    (c : CacheState K V) (k : K) (i : Item V) (now : Int) :
    (c.hasCallback = true →
      (c.DeleteExpired now).evictedLog =
        c.evictedLog ++
          (c.items.filter (fun p => p.2.expiredWithNow now)).map
            (fun p => (p.1, p.2.v))) ∧
    (c.hasCallback = true → (c.items.map Prod.fst).Nodup →
      mapLoad c.items k = some i → i.expiredWithNow now = true →
      (((c.items.filter (fun p => p.2.expiredWithNow now)).map
        (fun p => (p.1, p.2.v))).filter
          (fun q => decide (q = (k, i.v)))).length = 1) ∧
    (c.hasCallback = true → mapLoad c.items k = some i →
      (c.GetAndDelete k).1.evictedLog = c.evictedLog ++ [(k, i.v)]) ∧
    (c.Delete k = (c.GetAndDelete k).1) ∧
    (∀ valueFn : V → Bool → V × ComputeOp, ∀ d : Int,
      (c.Compute k valueFn d now).1.evictedLog = c.evictedLog) := by
  refine ⟨?_, ?_, ?_, ?_, ?_⟩
  · intro hcb
    simp [CacheState.DeleteExpired, hcb]
  · intro _ hnd hml hex
    have hfilter : (k, i) ∈ c.items.filter (fun p => p.2.expiredWithNow now) :=
      List.mem_filter.mpr ⟨mapLoad_mem c.items k i hml, by simpa using hex⟩
    have hmem : (k, i.v) ∈ (c.items.filter (fun p => p.2.expiredWithNow now)).map
        (fun p => (p.1, p.2.v)) :=
      List.mem_map.mpr ⟨(k, i), hfilter, rfl⟩
    have h1 : ((c.items.filter (fun p => p.2.expiredWithNow now)).map Prod.fst).Nodup :=
      hnd.sublist ((List.filter_sublist c.items).map Prod.fst)
    have h2 : (((c.items.filter (fun p => p.2.expiredWithNow now)).map
        (fun p => (p.1, p.2.v))).map Prod.fst).Nodup := by
      rw [List.map_map]
      exact h1
    exact filter_self_length_one_of_nodup (List.Nodup.of_map Prod.fst h2) hmem
  · intro hcb hml
    simp [CacheState.GetAndDelete, hml, hcb]
  · rfl
  · intro valueFn d
    rcases hml : mapLoad c.items k with _ | ov
    · rcases hop : (valueFn default false).2 with _ | _ | _ <;>
        simp [CacheState.Compute, mapCompute, hml, hop]
    · by_cases hex : ov.expiredWithNow now = true
      · rcases hop : (valueFn default false).2 with _ | _ | _ <;>
          simp [CacheState.Compute, mapCompute, hml, hex, hop]
      · simp only [Bool.not_eq_true] at hex
        rcases hop : (valueFn ov.v true).2 with _ | _ | _ <;>
          simp [CacheState.Compute, mapCompute, hml, hex, hop]

/-- Witness for amended C5 at concrete inputs: the sweep over a cache holding
an expired entry (0, 5) and a fresh entry (1, 7) invokes the callback exactly
once with (0, 5); GetAndDelete of key 1 invokes it once with (1, 7); Delete
matches GetAndDelete; a Compute-DeleteOp eviction leaves the log empty. -/
theorem evicted_callback_unique_witness :
    (((⟨[(0, Item.mk 5 3), (1, Item.mk 7 0)], NoExpiration, true, []⟩ :
        CacheState Nat Nat).DeleteExpired 10).evictedLog = [(0, 5)]) ∧
    (((((⟨[(0, Item.mk 5 3), (1, Item.mk 7 0)], NoExpiration, true, []⟩ :
        CacheState Nat Nat).items.filter (fun p => p.2.expiredWithNow 10)).map
        (fun p => (p.1, p.2.v))).filter
          (fun q => decide (q = (0, 5)))).length = 1) ∧
    (((⟨[(0, Item.mk 5 3), (1, Item.mk 7 0)], NoExpiration, true, []⟩ :
        CacheState Nat Nat).GetAndDelete 1).1.evictedLog = [(1, 7)]) ∧
    ((⟨[(0, Item.mk 5 3), (1, Item.mk 7 0)], NoExpiration, true, []⟩ :
        CacheState Nat Nat).Delete 1 =
      ((⟨[(0, Item.mk 5 3), (1, Item.mk 7 0)], NoExpiration, true, []⟩ :
        CacheState Nat Nat).GetAndDelete 1).1) ∧
    (((⟨[(0, Item.mk 5 3), (1, Item.mk 7 0)], NoExpiration, true, []⟩ :
        CacheState Nat Nat).Compute 0
        (fun _ _ => ((0 : Nat), ComputeOp.DeleteOp)) 3 10).1.evictedLog = []) := by
  refine ⟨?_, ?_, ?_, ?_, ?_⟩
  · exact ((evicted_callback_unique
      (⟨[(0, Item.mk 5 3), (1, Item.mk 7 0)], NoExpiration, true, []⟩ : CacheState Nat Nat)
      0 (Item.mk 5 3) 10).1 (by decide)).trans (by decide)
  · exact (evicted_callback_unique
      (⟨[(0, Item.mk 5 3), (1, Item.mk 7 0)], NoExpiration, true, []⟩ : CacheState Nat Nat)
      0 (Item.mk 5 3) 10).2.1 (by decide) (by decide) (by decide) (by decide)
  · exact ((evicted_callback_unique
      (⟨[(0, Item.mk 5 3), (1, Item.mk 7 0)], NoExpiration, true, []⟩ : CacheState Nat Nat)
      1 (Item.mk 7 0) 10).2.2.1 (by decide) (by decide)).trans (by decide)
  · exact (evicted_callback_unique
      (⟨[(0, Item.mk 5 3), (1, Item.mk 7 0)], NoExpiration, true, []⟩ : CacheState Nat Nat)
      1 (Item.mk 7 0) 10).2.2.2.1
  · exact (evicted_callback_unique
      (⟨[(0, Item.mk 5 3), (1, Item.mk 7 0)], NoExpiration, true, []⟩ : CacheState Nat Nat)
      0 (Item.mk 5 3) 10).2.2.2.2 (fun _ _ => ((0 : Nat), ComputeOp.DeleteOp)) 3

/-- Counterexample to C8 as stated: at a quiescent point where the map holds a
single entry that is already expired (expiry 5 at now = 10), Count() is 1 while
a Range traversal started then visits 0 keys — the two are not equal. -/
theorem count_range_counterexample :
    ¬ ((⟨[(0, Item.mk 1 5)], NoExpiration, false, []⟩ : CacheState Nat Nat).Count =
      ((⟨[(0, Item.mk 1 5)], NoExpiration, false, []⟩ :
        CacheState Nat Nat).rangeKeys 10).length) := by
  decide

/-- Claim C8 (amended): at a quiescent point, Count() returns the underlying
map's size, which equals the number of keys a Range traversal started at that
point would visit plus the number of stored entries already expired (and not
yet reaped) at that instant; the two counts coincide exactly when no stored
entry is expired. -/
theorem count_eq_range_plus_expired (c : CacheState K V) (now : Int) :
    c.Count = (c.rangeKeys now).length +
      (c.items.filter (fun p => p.2.expiredWithNow now)).length := by
  rw [CacheState.Count, CacheState.rangeKeys, List.length_map,
    length_filter_split c.items (fun p => p.2.expiredWithNow now)]
  omega

/-- Claim C9: when a get-family operation removes an entry because it found the
item expired, the evicted callback is not invoked for that removal — the entry
is deleted and the invocation log is unchanged, whatever callback is
configured. -/
theorem get_expired_no_callback [DecidableEq K] [Inhabited V] (c : CacheState K V)
    (k : K) (i : Item V) (now : Int) :
    mapLoad c.items k = some i → i.expiredWithNow now = true →
      (c.Get k now).1.evictedLog = c.evictedLog ∧
      mapLoad (c.Get k now).1.items k = none ∧
      (c.GetWithExpiration k now).1.evictedLog = c.evictedLog ∧
      (c.GetWithTTL k now).1.evictedLog = c.evictedLog := by
  intro hml hex
  refine ⟨?_, ?_, ?_, ?_⟩
  · simp [CacheState.Get, CacheState.getItem, getCore, mapCompute, hml, hex]
  · simp [CacheState.Get, CacheState.getItem, getCore, mapCompute, hml, hex,
      mapLoad_mapDelete_self]
  · simp [CacheState.GetWithExpiration, CacheState.getItem, getCore, mapCompute,
      hml, hex]
  · simp [CacheState.GetWithTTL, CacheState.getItem, getCore, mapCompute,
      hml, hex]

/-- Witness for C9 at a concrete input: a configured callback, key 0 expired at
now = 10; Get deletes the entry and the log stays empty. -/
theorem get_expired_no_callback_witness :
    (((⟨[(0, Item.mk 5 3)], NoExpiration, true, []⟩ : CacheState Nat Nat).Get 0
        10).1.evictedLog = []) ∧
    (mapLoad ((⟨[(0, Item.mk 5 3)], NoExpiration, true, []⟩ : CacheState Nat Nat).Get 0
        10).1.items 0 = none) := by
  refine ⟨?_, ?_⟩
  · exact ((get_expired_no_callback
      (⟨[(0, Item.mk 5 3)], NoExpiration, true, []⟩ : CacheState Nat Nat)
      0 (Item.mk 5 3) 10) (by decide) (by decide)).1
  · exact ((get_expired_no_callback
      (⟨[(0, Item.mk 5 3)], NoExpiration, true, []⟩ : CacheState Nat Nat)
      0 (Item.mk 5 3) 10) (by decide) (by decide)).2.1

/-- Claim C10: GetAndDelete of a key whose entry is still present but expired
returns the expired stored value with loaded=true and invokes the configured
evicted callback with that key and value — the delete path applies no expiry
filtering — and Delete is exactly GetAndDelete with its results discarded. -/
theorem get_and_delete_expired [DecidableEq K] [Inhabited V] (c : CacheState K V)
    (k : K) (i : Item V) (now : Int) :
    (c.hasCallback = true → mapLoad c.items k = some i →
      i.expiredWithNow now = true →
      c.GetAndDelete k =
        ({ c with items := mapDelete c.items k,
                  evictedLog := c.evictedLog ++ [(k, i.v)] }, i.v, true)) ∧
    (∀ j : K, c.Delete j = (c.GetAndDelete j).1) := by
  refine ⟨?_, ?_⟩
  · intro hcb hml _
    simp [CacheState.GetAndDelete, hml, hcb]
  · intro j
    rfl

/-- Witness for C10 at a concrete input: key 0 expired (value 5, expiry 3) at
now = 10 with a configured callback; GetAndDelete returns (5, true), removes
the entry and logs the eviction, and Delete produces the same state. -/
theorem get_and_delete_expired_witness :
    ((⟨[(0, Item.mk 5 3)], NoExpiration, true, []⟩ : CacheState Nat Nat).GetAndDelete 0 =
      (⟨[], NoExpiration, true, [(0, 5)]⟩, 5, true)) ∧
    ((⟨[(0, Item.mk 5 3)], NoExpiration, true, []⟩ : CacheState Nat Nat).Delete 0 =
      ((⟨[(0, Item.mk 5 3)], NoExpiration, true, []⟩ :
        CacheState Nat Nat).GetAndDelete 0).1) := by
  refine ⟨?_, ?_⟩
  · exact (((get_and_delete_expired
      (⟨[(0, Item.mk 5 3)], NoExpiration, true, []⟩ : CacheState Nat Nat)
      0 (Item.mk 5 3) 10).1 (by decide) (by decide) (by decide))).trans (by decide)
  · exact (get_and_delete_expired
      (⟨[(0, Item.mk 5 3)], NoExpiration, true, []⟩ : CacheState Nat Nat)
      0 (Item.mk 5 3) 10).2 0

/-- Claim C4, settled against the spec-modelled LoadItemsWithExpiration (its
body is not among the available source files): an entry whose Expiration is the
zero time is stored never-expiring; an entry whose Expiration is in the future
is stored with that absolute expiry; an entry whose Expiration is in the past
is not inserted and any existing entry at that key is deleted, with the
evicted callback not invoked for it; an empty input leaves the cache
unchanged. -/
theorem load_items_with_expiration_rules [DecidableEq K] (c : CacheState K V)
    (k : K) (v : V) (t now : Int) :
    (t = 0 → c.LoadItemsWithExpiration [(k, v, t)] now =
      { c with items := mapStore c.items k ⟨v, 0⟩ }) ∧
    (t > now → c.LoadItemsWithExpiration [(k, v, t)] now =
      { c with items := mapStore c.items k ⟨v, t⟩ }) ∧
    (t ≠ 0 → t < now →
      mapLoad (c.LoadItemsWithExpiration [(k, v, t)] now).items k = none ∧
      (c.LoadItemsWithExpiration [(k, v, t)] now).evictedLog = c.evictedLog) ∧
    (c.LoadItemsWithExpiration [] now = c) := by
  refine ⟨?_, ?_, ?_, ?_⟩
  · intro ht
    simp [CacheState.LoadItemsWithExpiration, ht]
  · intro ht
    by_cases h0 : t = 0
    · subst h0
      simp [CacheState.LoadItemsWithExpiration]
    · simp [CacheState.LoadItemsWithExpiration, h0, ht]
  · intro h0 ht
    have hng : ¬ t > now := by omega
    refine ⟨?_, ?_⟩
    · simp [CacheState.LoadItemsWithExpiration, h0, hng, mapLoad_mapDelete_self]
    · simp [CacheState.LoadItemsWithExpiration, h0, hng]
  · rfl

/-- Witness for C4 at concrete inputs: a zero-time entry is stored
never-expiring, a future entry (expiry 20 at now = 10) keeps its absolute
expiry, a past entry (expiry 2) deletes the existing entry at its key without
touching the callback log, and an empty load is a no-op. -/
theorem load_items_with_expiration_rules_witness :
    ((⟨[], NoExpiration, true, []⟩ : CacheState Nat Nat).LoadItemsWithExpiration
      [(0, 1, 0)] 10 = ⟨[(0, Item.mk 1 0)], NoExpiration, true, []⟩) ∧
    ((⟨[], NoExpiration, true, []⟩ : CacheState Nat Nat).LoadItemsWithExpiration
      [(0, 1, 20)] 10 = ⟨[(0, Item.mk 1 20)], NoExpiration, true, []⟩) ∧
    (mapLoad ((⟨[(0, Item.mk 9 0)], NoExpiration, true, []⟩ :
      CacheState Nat Nat).LoadItemsWithExpiration [(0, 1, 2)] 10).items 0 = none) ∧
    (((⟨[(0, Item.mk 9 0)], NoExpiration, true, []⟩ :
      CacheState Nat Nat).LoadItemsWithExpiration [(0, 1, 2)] 10).evictedLog = []) ∧
    ((⟨[(0, Item.mk 9 0)], NoExpiration, true, []⟩ :
      CacheState Nat Nat).LoadItemsWithExpiration [] 10 =
      ⟨[(0, Item.mk 9 0)], NoExpiration, true, []⟩) := by
  refine ⟨?_, ?_, ?_, ?_, ?_⟩
  · exact ((load_items_with_expiration_rules
      (⟨[], NoExpiration, true, []⟩ : CacheState Nat Nat) 0 1 0 10).1 rfl).trans
      (by decide)
  · exact ((load_items_with_expiration_rules
      (⟨[], NoExpiration, true, []⟩ : CacheState Nat Nat) 0 1 20 10).2.1
      (by decide)).trans (by decide)
  · exact ((load_items_with_expiration_rules
      (⟨[(0, Item.mk 9 0)], NoExpiration, true, []⟩ : CacheState Nat Nat) 0 1 2 10).2.2.1
      (by decide) (by decide)).1
  · exact (((load_items_with_expiration_rules
      (⟨[(0, Item.mk 9 0)], NoExpiration, true, []⟩ : CacheState Nat Nat) 0 1 2 10).2.2.1
      (by decide) (by decide)).2).trans (by decide)
  · exact (load_items_with_expiration_rules
      (⟨[(0, Item.mk 9 0)], NoExpiration, true, []⟩ : CacheState Nat Nat) 0 1 2 10).2.2.2

end FufuCache
